import Mathlib

/-!
Verification of the booking conflict/availability engine, the wallet ledger
and the settlement reporting of the pitch-booking backend.

The embedding models the TypeScript handlers in
server/src/handlers/bookings.ts, server/src/handlers/wallet.ts and
server/src/handlers/admin.ts over explicit relational state.  The
JavaScript numbers flowing through the handlers are modelled as exact
rationals, and every store of a value into a scale-2 numeric column
(total_amount of a booking, wallets.balance, wallet_transactions.amount) is
modelled by an explicit round-to-2-decimals cast with ties away from zero,
as PostgreSQL applies it; the transaction-row insert and the balance update
of a wallet mutation round independently, exactly as the two SQL statements
of the source do.  JavaScript NaN, which the booking handler can produce
while parsing malformed time strings, is modelled by an explicit NaN value
with the JS propagation and comparison rules.
-/

set_option allowUnsafeReducibility true in
attribute [semireducible] Rat.add Rat.mul Rat.sub Rat.inv Rat.div Rat.ofScientific

deriving instance DecidableEq for Except

namespace PitchTunisia

/-- A JavaScript number as it occurs in these handlers: an exact rational
value or NaN.  (The handlers only add, subtract, multiply and divide values
that fit exact rational arithmetic; IEEE rounding is not modelled.) -/
inductive JSNum
  | num (q : ℚ)
  | nan
deriving DecidableEq

/-- Addition; NaN propagates (also models adding JS undefined). -/
def JSNum.add : JSNum → JSNum → JSNum
  | num a, num b => num (a + b)
  | _, _ => nan

/-- Subtraction; NaN propagates. -/
def JSNum.sub : JSNum → JSNum → JSNum
  | num a, num b => num (a - b)
  | _, _ => nan

/-- Multiplication; NaN propagates. -/
def JSNum.mul : JSNum → JSNum → JSNum
  | num a, num b => num (a * b)
  | _, _ => nan

/-- Division; NaN propagates.  (Only used with the nonzero literal 60.) -/
def JSNum.div : JSNum → JSNum → JSNum
  | num a, num b => num (a / b)
  | _, _ => nan

/-- The JS comparison a less-than b: false whenever either side is NaN. -/
def JSNum.jlt : JSNum → JSNum → Bool
  | num a, num b => a < b
  | _, _ => false

/-- The JS comparison a less-or-equal b: false whenever either side is NaN. -/
def JSNum.jle : JSNum → JSNum → Bool
  | num a, num b => a ≤ b
  | _, _ => false

/-- Round a rational to 2 decimal places, ties away from zero: the cast a
PostgreSQL numeric(p, 2) column applies when a value is stored. -/
def round2 (q : ℚ) : ℚ :=
  if 0 ≤ q then ((⌊q * 100 + 1/2⌋ : ℤ) : ℚ) / 100
  else -(((⌊-(q * 100) + 1/2⌋ : ℤ) : ℚ) / 100)

/-- A value of the currency scale: a whole number of cents, on which the
scale-2 cast of a numeric(p, 2) column is the identity. -/
def isCent (q : ℚ) : Prop := (q * 100).den = 1

instance (q : ℚ) : Decidable (isCent q) :=
  inferInstanceAs (Decidable ((q * 100).den = 1))

/-- Storage of a JS number into a numeric(p, 2) column.  PostgreSQL numeric
accepts NaN and keeps it. -/
def JSNum.store2 : JSNum → JSNum
  | num q => num (round2 q)
  | nan => nan

/-- Split a character list at every occurrence of the separator, as the JS
string split method does. -/
def splitOnChar (sep : Char) : List Char → List (List Char)
  | [] => [[]]
  | c :: rest =>
    let r := splitOnChar sep rest
    if c = sep then [] :: r
    else
      match r with
      | [] => [[c]]
      | g :: gs => (c :: g) :: gs

/-- The JS Number() conversion on the strings these handlers receive: the
empty string converts to 0, a string of decimal digits to its value, and any
string containing a non-digit character to NaN.  (Signed, fractional and
exponent forms never occur in HH:MM fields and are not modelled.) -/
def jsNumberOfChars (cs : List Char) : JSNum :=
  if cs.isEmpty then .num 0
  else if cs.all Char.isDigit then
    .num ((cs.foldl (fun acc c => acc * 10 + (c.toNat - 48)) 0 : ℕ) : ℚ)
  else .nan

/-- Embeds the time-of-day parsing in createBooking: split the string on the
colon, convert the first two components with Number(), and compute
hour * 60 + minute.  When the string has a single component the destructured
minute is undefined, and undefined in JS arithmetic yields NaN. -/
def timeToMinutes (t : String) : JSNum :=
  match (splitOnChar ':' t.toList).map jsNumberOfChars with
  | [] => .nan
  | [h] => (h.mul (.num 60)).add .nan
  | h :: m :: _ => (h.mul (.num 60)).add m

/-- Role enum of the users table. -/
inductive UserRole
  | admin
  | facility_owner
  | staff_member
  | player
  | tournament_organizer
deriving DecidableEq

/-- Row of the users table (the fields these handlers read). -/
structure User where
  id : ℕ
  full_name : String
  role : UserRole
  is_active : Bool
deriving DecidableEq

/-- Row of the facilities table (the fields these handlers read). -/
structure Facility where
  id : ℕ
  owner_id : ℕ
  is_active : Bool
deriving DecidableEq

/-- Row of the pitches table (the fields these handlers read); hourly_rate
is a numeric(10, 2) column. -/
structure Pitch where
  id : ℕ
  facility_id : ℕ
  hourly_rate : ℚ
  is_active : Bool
deriving DecidableEq

/-- Status enum of the bookings table. -/
inductive BookingStatus
  | pending
  | confirmed
  | rejected
  | cancelled
deriving DecidableEq

/-- Row of the bookings table.  total_amount is a numeric(10, 2) column;
PostgreSQL numeric admits NaN, which the handler can store when a time
string fails to parse. -/
structure BookingRow where
  player_id : ℕ
  pitch_id : ℕ
  booking_date : String
  start_time : String
  end_time : String
  facility_id : ℕ
  status : BookingStatus
  total_amount : JSNum
  notes : Option String
deriving DecidableEq

/-- The relational state read and written by createBooking. -/
structure BookingDB where
  users : List User
  facilities : List Facility
  pitches : List Pitch
  bookings : List BookingRow
deriving DecidableEq

/-- Input of createBooking (CreateBookingInput in schema.ts). -/
structure CreateBookingInput where
  player_id : ℕ
  pitch_id : ℕ
  booking_date : String
  start_time : String
  end_time : String
  notes : Option String
deriving DecidableEq

/-- The failure modes createBooking raises. -/
inductive BookingError
  | playerNotFound
  | pitchNotFound
  | invalidTimeRange
  | slotConflict
deriving DecidableEq

/-- Embeds new Date(s).toISOString() truncated at the date: for the ISO
YYYY-MM-DD date strings the callers pass this round-trip is the identity. -/
def normalizeDate (s : String) : String := s

/-- The pitches-innerJoin-facilities rows of the pitch lookup. -/
def pitchJoinFacility (db : BookingDB) : List (Pitch × Facility) :=
  db.pitches.filterMap fun p =>
    (db.facilities.find? fun f => f.id == p.facility_id).map fun f => (p, f)

/-- The pitch lookup of createBooking: first joined row with the requested
id whose pitch and facility are both active. -/
def findActivePitchWithFacility (db : BookingDB) (pid : ℕ) : Option (Pitch × Facility) :=
  (pitchJoinFacility db).find? fun pf =>
    pf.1.id == pid && pf.1.is_active && pf.2.is_active

/-- The per-row overlap test of the conflict check, with the new request's
start and end already converted to minutes. -/
def overlapsNew (startM endM : JSNum) (b : BookingRow) : Bool :=
  startM.jlt (timeToMinutes b.end_time) && (timeToMinutes b.start_time).jlt endM

/-- The conflict-check query: all bookings for this pitch and this exact
date with status confirmed. -/
def confirmedBookingsFor (db : BookingDB) (pid : ℕ) (d : String) : List BookingRow :=
  db.bookings.filter fun b =>
    b.pitch_id == pid && b.booking_date == d && b.status == BookingStatus.confirmed

/-- Embeds createBooking of server/src/handlers/bookings.ts: validate the
player, look up the pitch with its facility, parse the times, reject an end
not after the start, reject an overlap with a confirmed booking of the same
pitch and date, and insert a pending booking priced at
hourly_rate * (end - start) / 60. -/
def createBooking (db : BookingDB) (input : CreateBookingInput) :
    Except BookingError (BookingDB × BookingRow) :=
  match db.users.find? fun u => u.id == input.player_id && u.is_active with
  | none => .error .playerNotFound
  | some _ =>
    match findActivePitchWithFacility db input.pitch_id with
    | none => .error .pitchNotFound
    | some (pitchData, facilityData) =>
      let startTimeInMinutes := timeToMinutes input.start_time
      let endTimeInMinutes := timeToMinutes input.end_time
      if endTimeInMinutes.jle startTimeInMinutes then
        .error .invalidTimeRange
      else
        let durationInHours := (endTimeInMinutes.sub startTimeInMinutes).div (.num 60)
        let totalAmount := (JSNum.num pitchData.hourly_rate).mul durationInHours
        let bookingDate := normalizeDate input.booking_date
        let conflictingBookings := confirmedBookingsFor db input.pitch_id bookingDate
        if conflictingBookings.any (overlapsNew startTimeInMinutes endTimeInMinutes) then
          .error .slotConflict
        else
          let newBooking : BookingRow :=
            { player_id := input.player_id
              pitch_id := input.pitch_id
              booking_date := bookingDate
              start_time := input.start_time
              end_time := input.end_time
              facility_id := facilityData.id
              status := .pending
              total_amount := totalAmount.store2
              notes := input.notes }
          .ok ({ db with bookings := db.bookings ++ [newBooking] }, newBooking)

/-- Type enum of the wallet_transactions table. -/
inductive TransactionType
  | topup
  | booking_payment
  | tournament_fee
  | facility_payout
  | admin_adjustment
deriving DecidableEq

/-- Row of the wallets table.  The schema puts a unique constraint on
user_id; balance and max_negative_balance are numeric(15, 2) columns, so
every value stored into them passes through the scale-2 cast round2. -/
structure Wallet where
  id : ℕ
  user_id : ℕ
  balance : ℚ
  max_negative_balance : ℚ
deriving DecidableEq

/-- Row of the wallet_transactions table (the fields the claims are about). -/
structure WalletTransaction where
  wallet_id : ℕ
  type : TransactionType
  amount : ℚ
deriving DecidableEq

/-- The relational state read and written by the wallet handlers.
nextWalletId models the serial primary key of the wallets table. -/
structure WalletDB where
  wallets : List Wallet
  transactions : List WalletTransaction
  nextWalletId : ℕ
deriving DecidableEq

/-- The empty wallet store. -/
def initialWalletDB : WalletDB :=
  { wallets := [], transactions := [], nextWalletId := 0 }

/-- The failure modes the wallet handlers raise.  (The handlers contain no
amount validation, so no InvalidAmount constructor exists.) -/
inductive WalletError
  | walletNotFound
  | insufficientBalance
deriving DecidableEq

/-- Embeds getWalletByUserId: first wallet row with the given user_id. -/
def getWalletByUserId (s : WalletDB) (userId : ℕ) : Option Wallet :=
  s.wallets.find? fun w => w.user_id == userId

/-- Lazy wallet creation shared by topUpWallet and creditWallet: reuse the
existing wallet or insert one with balance 0 and max_negative_balance 0. -/
def getOrCreateWallet (s : WalletDB) (userId : ℕ) : WalletDB × Wallet :=
  match getWalletByUserId s userId with
  | some w => (s, w)
  | none =>
    let w : Wallet :=
      { id := s.nextWalletId, user_id := userId, balance := 0, max_negative_balance := 0 }
    ({ s with wallets := s.wallets ++ [w], nextWalletId := s.nextWalletId + 1 }, w)

/-- The two store writes every wallet mutation performs: insert the
transaction row (whose amount the caller has already cast to scale 2), then
run the SQL update balance = balance + delta on the wallet row(s) with the
transaction's wallet id, the assignment casting the exact numeric sum to
the column's scale 2.  The two casts are independent, as in the source. -/
def recordTxn (s : WalletDB) (t : WalletTransaction) (delta : ℚ) : WalletDB :=
  { s with
    transactions := s.transactions ++ [t]
    wallets := s.wallets.map fun w =>
      if w.id == t.wallet_id then { w with balance := round2 (w.balance + delta) } else w }

/-- Embeds topUpWallet: get or create the wallet, insert a topup transaction
of the (unvalidated) amount, and add the amount to the balance. -/
def topUpWallet (s : WalletDB) (userId : ℕ) (amount : ℚ) :
    WalletDB × WalletTransaction :=
  let sw := getOrCreateWallet s userId
  let txn : WalletTransaction :=
    { wallet_id := sw.2.id, type := .topup, amount := round2 amount }
  (recordTxn sw.1 txn amount, txn)

/-- Embeds checkWalletBalance: false without a wallet, otherwise whether
balance plus max_negative_balance covers the required amount. -/
def checkWalletBalance (s : WalletDB) (userId : ℕ) (requiredAmount : ℚ) : Bool :=
  match getWalletByUserId s userId with
  | none => false
  | some w => w.balance + w.max_negative_balance ≥ requiredAmount

/-- Embeds debitWallet: require an existing wallet and an available balance
covering the (unvalidated) amount, then insert a transaction of -amount and
subtract the amount from the balance. -/
def debitWallet (s : WalletDB) (userId : ℕ) (amount : ℚ) (txType : TransactionType) :
    Except WalletError (WalletDB × WalletTransaction) :=
  match getWalletByUserId s userId with
  | none => .error .walletNotFound
  | some wallet =>
    if checkWalletBalance s userId amount then
      let txn : WalletTransaction :=
        { wallet_id := wallet.id, type := txType, amount := round2 (-amount) }
      .ok (recordTxn s txn (-amount), txn)
    else
      .error .insufficientBalance

/-- Embeds creditWallet: get or create the wallet, insert a transaction of
the (unvalidated) amount, and add the amount to the balance. -/
def creditWallet (s : WalletDB) (userId : ℕ) (amount : ℚ) (txType : TransactionType) :
    WalletDB × WalletTransaction :=
  let sw := getOrCreateWallet s userId
  let txn : WalletTransaction :=
    { wallet_id := sw.2.id, type := txType, amount := round2 amount }
  (recordTxn sw.1 txn amount, txn)

/-- Embeds adjustWalletBalance of the admin handlers: require an existing
wallet, set the balance of the user's wallet row to the old balance plus
the (unvalidated, arbitrarily signed) amount, and insert an
admin_adjustment transaction of that amount.  The balance update and the
transaction insert each store through the numeric(15, 2) cast
independently. -/
def adjustWalletBalance (s : WalletDB) (userId : ℕ) (amount : ℚ) :
    Except WalletError WalletDB :=
  match getWalletByUserId s userId with
  | none => .error .walletNotFound
  | some wallet =>
    let newBalance := wallet.balance + amount
    let s1 : WalletDB := { s with
      wallets := s.wallets.map fun w =>
        if w.user_id == userId then { w with balance := round2 newBalance } else w }
    .ok { s1 with
      transactions := s1.transactions ++
        [{ wallet_id := wallet.id, type := .admin_adjustment, amount := round2 amount }] }

/-- One call against the wallet engine, for reasoning about arbitrary
sequences of operations. -/
inductive WalletOp
  | topUp (userId : ℕ) (amount : ℚ)
  | debit (userId : ℕ) (amount : ℚ) (txType : TransactionType)
  | credit (userId : ℕ) (amount : ℚ) (txType : TransactionType)
deriving DecidableEq

/-- The amount an operation carries. -/
def WalletOp.amount : WalletOp → ℚ
  | .topUp _ a => a
  | .debit _ a _ => a
  | .credit _ a _ => a

/-- Run one operation; a failed debit leaves the state untouched. -/
def applyOp (s : WalletDB) : WalletOp → WalletDB
  | .topUp u a => (topUpWallet s u a).1
  | .debit u a t =>
    match debitWallet s u a t with
    | .ok r => r.1
    | .error _ => s
  | .credit u a t => (creditWallet s u a t).1

/-- Run a sequence of operations. -/
def applyOps (s : WalletDB) (ops : List WalletOp) : WalletDB :=
  ops.foldl applyOp s

/-- Sum of the amounts of the transactions of one wallet. -/
def txSumL (ts : List WalletTransaction) (wid : ℕ) : ℚ :=
  ((ts.filter fun t => t.wallet_id == wid).map WalletTransaction.amount).sum

/-- Sum of the amounts of one wallet's transactions in the store. -/
def txSum (s : WalletDB) (wid : ℕ) : ℚ :=
  txSumL s.transactions wid

/-- Ledger consistency: every wallet's balance is the sum of its
transactions' amounts. -/
def ledgerConsistent (s : WalletDB) : Prop :=
  ∀ w ∈ s.wallets, w.balance = txSum s w.id

/-- Internal well-formedness of the wallet store: ids issued so far are
below the next serial value, and every stored balance carries the column's
scale (the scale-2 cast guarantees this). -/
structure WalletWF (s : WalletDB) : Prop where
  walletIdLt : ∀ w ∈ s.wallets, w.id < s.nextWalletId
  txnIdLt : ∀ t ∈ s.transactions, t.wallet_id < s.nextWalletId
  balCent : ∀ w ∈ s.wallets, isCent w.balance
  ledger : ledgerConsistent s

/-- The settlement direction enum of getFinancialSettlements. -/
inductive SettlementType
  | payout
  | collection
deriving DecidableEq

/-- One element of the getFinancialSettlements result. -/
structure SettlementEntry where
  facilityOwnerId : ℕ
  ownerName : String
  balance : ℚ
  settlementAmount : ℚ
  settlementType : SettlementType
deriving DecidableEq

/-- The per-row mapping of getFinancialSettlements: settlementAmount and
settlementType start at 0 and payout, a positive balance switches them to a
payout of the balance, a balance below the negative limit to a collection of
the excess; a row is produced in every case. -/
def settlementRow (u : User) (w : Wallet) : SettlementEntry :=
  let balance := w.balance
  let maxNegativeBalance := w.max_negative_balance
  if 0 < balance then
    { facilityOwnerId := u.id, ownerName := u.full_name, balance := balance
      settlementAmount := balance, settlementType := .payout }
  else if balance < -maxNegativeBalance then
    { facilityOwnerId := u.id, ownerName := u.full_name, balance := balance
      settlementAmount := |balance + maxNegativeBalance|, settlementType := .collection }
  else
    { facilityOwnerId := u.id, ownerName := u.full_name, balance := balance
      settlementAmount := 0, settlementType := .payout }

/-- Embeds getFinancialSettlements of the admin handlers: users with role
facility_owner inner-joined with their wallets, each joined row mapped
through settlementRow. -/
def getFinancialSettlements (users : List User) (wallets : List Wallet) :
    List SettlementEntry :=
  users.flatMap fun u =>
    if u.role == UserRole.facility_owner then
      (wallets.filter fun w => w.user_id == u.id).map fun w => settlementRow u w
    else []

/-- One element of the getFacilityWalletSummary result. -/
structure FacilitySummary where
  userId : ℕ
  balance : ℚ
  owedAmount : ℚ
deriving DecidableEq

/-- A left join against a list of candidate rows: one NULL row when no row
matches, otherwise the matching rows. -/
def leftRows {α : Type} (l : List α) : List (Option α) :=
  if l.isEmpty then [none] else l.map some

/-- The joined rows the getFacilityWalletSummary query produces for one
facility-owner user: users left-join facilities on owner_id, left-join
wallets on user_id, left-join wallet_transactions on wallet_id.  A user
owning several facilities fans the wallet-transaction rows out once per
facility. -/
def summaryJoinRows (facilities : List Facility) (s : WalletDB) (u : User) :
    List (Option Facility × Option Wallet × Option WalletTransaction) :=
  (leftRows (facilities.filter fun f => f.owner_id == u.id)).flatMap fun f? =>
    (leftRows (s.wallets.filter fun w => w.user_id == u.id)).flatMap fun w? =>
      (leftRows (match w? with
        | some w => s.transactions.filter fun t => t.wallet_id == w.id
        | none => [])).map fun t? => (f?, w?, t?)

/-- The CASE WHEN type = booking_payment THEN amount ELSE 0 expression of
the summary query, with NULL rows contributing 0. -/
def caseBookingPayment : Option WalletTransaction → ℚ
  | some t => if t.type == TransactionType.booking_payment then t.amount else 0
  | none => 0

/-- Embeds getFacilityWalletSummary of the wallet handlers: for every user
with role facility_owner, one row carrying the wallet balance (0 without a
wallet) and owedAmount = (sum of the booking_payment amounts over the joined
rows) * -0.85. -/
def getFacilityWalletSummary (users : List User) (facilities : List Facility)
    (s : WalletDB) : List FacilitySummary :=
  (users.filter fun u => u.role == UserRole.facility_owner).map fun u =>
    let totalBookingRevenue :=
      ((summaryJoinRows facilities s u).map fun r => caseBookingPayment r.2.2).sum
    let balance :=
      match getWalletByUserId s u.id with
      | some w => w.balance
      | none => 0
    { userId := u.id, balance := balance
      owedAmount := totalBookingRevenue * (-(85 : ℚ) / 100) }

/-- Sum of the booking_payment transaction amounts of one wallet. -/
def bookingPaymentSum (s : WalletDB) (wid : ℕ) : ℚ :=
  ((s.transactions.filter fun t =>
      t.wallet_id == wid && t.type == TransactionType.booking_payment).map
    WalletTransaction.amount).sum

/-! Concrete states exercising the embedded handlers. -/

/-- A store with one active player, one active facility owning one active
pitch at hourly rate 50, and one confirmed booking 11:00 to 13:00 on
2024-12-25. -/
def exBookingDB : BookingDB :=
  { users := [{ id := 1, full_name := "Test Player", role := .player, is_active := true }]
    facilities := [{ id := 1, owner_id := 2, is_active := true }]
    pitches := [{ id := 1, facility_id := 1, hourly_rate := 50, is_active := true }]
    bookings := [{ player_id := 3, pitch_id := 1, booking_date := "2024-12-25",
                   start_time := "11:00", end_time := "13:00", facility_id := 1,
                   status := .confirmed, total_amount := .num 100, notes := none }] }

/-- A request overlapping the confirmed booking of exBookingDB. -/
def exConflictInput : CreateBookingInput :=
  { player_id := 1, pitch_id := 1, booking_date := "2024-12-25",
    start_time := "10:30", end_time := "11:30", notes := none }

/-- A conflict-free 90 minute request against exBookingDB. -/
def exPriceInput : CreateBookingInput :=
  { player_id := 1, pitch_id := 1, booking_date := "2024-12-25",
    start_time := "14:00", end_time := "15:30", notes := none }

/-- The booking row the exPriceInput request inserts. -/
def exPriceBooking : BookingRow :=
  { player_id := 1, pitch_id := 1, booking_date := "2024-12-25",
    start_time := "14:00", end_time := "15:30", facility_id := 1,
    status := .pending, total_amount := .num 75, notes := none }

/-- A request whose start time does not parse. -/
def exNanInput : CreateBookingInput :=
  { player_id := 1, pitch_id := 1, booking_date := "2024-12-25",
    start_time := "invalid", end_time := "12:00", notes := none }

/-- A wallet store with one wallet, user 7, balance 100, negative limit 50,
backed by a single 100 top-up. -/
def exWalletDB : WalletDB :=
  { wallets := [{ id := 1, user_id := 7, balance := 100, max_negative_balance := 50 }]
    transactions := [{ wallet_id := 1, type := .topup, amount := 100 }]
    nextWalletId := 2 }

/-- The result of debiting 30 from exWalletDB. -/
def exDebit30R : WalletDB × WalletTransaction :=
  ({ wallets := [{ id := 1, user_id := 7, balance := 100 + -30, max_negative_balance := 50 }]
     transactions := [{ wallet_id := 1, type := .topup, amount := 100 },
                      { wallet_id := 1, type := .booking_payment, amount := -30 }]
     nextWalletId := 2 },
   { wallet_id := 1, type := .booking_payment, amount := -30 })

/-- The result of debiting 150 from exWalletDB, overdrawing to -50. -/
def exDebit150R : WalletDB × WalletTransaction :=
  ({ wallets := [{ id := 1, user_id := 7, balance := 100 + -150, max_negative_balance := 50 }]
     transactions := [{ wallet_id := 1, type := .topup, amount := 100 },
                      { wallet_id := 1, type := .booking_payment, amount := -150 }]
     nextWalletId := 2 },
   { wallet_id := 1, type := .booking_payment, amount := -150 })

/-- A facility owner whose wallet sits inside the allowed negative range. -/
def exOwner : User :=
  { id := 3, full_name := "Owner", role := .facility_owner, is_active := true }

/-- The wallet of exOwner: balance -5 within the limit 10. -/
def exOwnerWallet : Wallet :=
  { id := 1, user_id := 3, balance := -5, max_negative_balance := 10 }

/-- The settlement row the code produces for exOwner. -/
def exZeroEntry : SettlementEntry :=
  { facilityOwnerId := 3, ownerName := "Owner", balance := -5,
    settlementAmount := 0, settlementType := .payout }

/-- A facility owner used for the wallet summary. -/
def exOwner2 : User :=
  { id := 5, full_name := "Owner Two", role := .facility_owner, is_active := true }

/-- Two facilities owned by exOwner2. -/
def exTwoFacilities : List Facility :=
  [{ id := 1, owner_id := 5, is_active := true },
   { id := 2, owner_id := 5, is_active := true }]

/-- A single facility owned by exOwner2. -/
def exOneFacility : List Facility :=
  [{ id := 1, owner_id := 5, is_active := true }]

/-- The wallet store of exOwner2: one wallet with a single booking_payment
transaction of -100. -/
def exOwner2WalletDB : WalletDB :=
  { wallets := [{ id := 1, user_id := 5, balance := 0, max_negative_balance := 0 }]
    transactions := [{ wallet_id := 1, type := .booking_payment, amount := -100 }]
    nextWalletId := 2 }

/-- A ledger-consistent store holding one cent of debt: wallet of user 7 at
balance -0.01 backed by a single -0.01 adjustment. -/
def exCentWalletDB : WalletDB :=
  { wallets := [{ id := 1, user_id := 7, balance := -1/100, max_negative_balance := 0 }]
    transactions := [{ wallet_id := 1, type := .admin_adjustment, amount := -1/100 }]
    nextWalletId := 2 }

/-- The store adjustWalletBalance produces from exCentWalletDB for the
sub-cent amount 0.005: the balance update -0.01 + 0.005 = -0.005 stores as
-0.01 while the transaction row stores as +0.01. -/
def exCentAdjusted : WalletDB :=
  { wallets := [{ id := 1, user_id := 7, balance := -1/100, max_negative_balance := 0 }]
    transactions := [{ wallet_id := 1, type := .admin_adjustment, amount := -1/100 },
                     { wallet_id := 1, type := .admin_adjustment, amount := 1/100 }]
    nextWalletId := 2 }

/-! Helper lemmas about the JS comparison semantics. -/

lemma jlt_num_iff (a : ℚ) (x : JSNum) :
    (JSNum.num a).jlt x = true ↔ ∃ q : ℚ, x = .num q ∧ a < q := by
  cases x <;> simp [JSNum.jlt]

lemma jlt_num_right_iff (x : JSNum) (b : ℚ) :
    x.jlt (JSNum.num b) = true ↔ ∃ q : ℚ, x = .num q ∧ q < b := by
  cases x <;> simp [JSNum.jlt]

lemma overlapsNew_num_iff (s e : ℚ) (b : BookingRow) :
    overlapsNew (.num s) (.num e) b = true ↔
      ∃ bs be : ℚ, timeToMinutes b.start_time = .num bs
        ∧ timeToMinutes b.end_time = .num be ∧ s < be ∧ bs < e := by
  unfold overlapsNew
  cases hst : timeToMinutes b.start_time <;> cases het : timeToMinutes b.end_time <;>
    simp [JSNum.jlt, and_comm]

/-- C1: a createBooking request that passes the player, pitch and time-range
validations fails with SlotConflict exactly when some existing booking of
the same pitch and the same date with status confirmed overlaps it in the
strict half-open sense at minute resolution; non-confirmed bookings never
conflict and touching boundaries do not conflict. -/
theorem createBooking_slotConflict_iff
    (db : BookingDB) (input : CreateBookingInput) (s e : ℚ) (u0 : User)
    (pf : Pitch × Facility)
    (hp : db.users.find? (fun u => u.id == input.player_id && u.is_active) = some u0)
    (hpf : findActivePitchWithFacility db input.pitch_id = some pf)
    (hs : timeToMinutes input.start_time = .num s)
    (he : timeToMinutes input.end_time = .num e)
    (hse : s < e) :
    createBooking db input = .error .slotConflict ↔
      ∃ b ∈ db.bookings, b.pitch_id = input.pitch_id
        ∧ b.booking_date = normalizeDate input.booking_date
        ∧ b.status = .confirmed
        ∧ ∃ bs be : ℚ, timeToMinutes b.start_time = .num bs
            ∧ timeToMinutes b.end_time = .num be
            ∧ s < be ∧ bs < e := by
  obtain ⟨pitchData, facilityData⟩ := pf
  have hle : (timeToMinutes input.end_time).jle (timeToMinutes input.start_time) = false := by
    rw [hs, he]
    simp [JSNum.jle, not_le.mpr hse]
  have hiff : ∀ b : BookingRow,
      (overlapsNew (timeToMinutes input.start_time) (timeToMinutes input.end_time) b = true)
        ↔ ∃ bs be : ℚ, timeToMinutes b.start_time = .num bs
            ∧ timeToMinutes b.end_time = .num be ∧ s < be ∧ bs < e := by
    intro b
    rw [hs, he, overlapsNew_num_iff]
  rw [createBooking, hp, hpf]
  simp only [hle, Bool.false_eq_true, if_false]
  by_cases hc : (confirmedBookingsFor db input.pitch_id
      (normalizeDate input.booking_date)).any
        (overlapsNew (timeToMinutes input.start_time) (timeToMinutes input.end_time)) = true
  · rw [if_pos hc]
    simp only [true_iff]
    rw [List.any_eq_true] at hc
    obtain ⟨b, hmem, hover⟩ := hc
    rw [confirmedBookingsFor, List.mem_filter] at hmem
    obtain ⟨hb, hcond⟩ := hmem
    simp only [Bool.and_eq_true, beq_iff_eq] at hcond
    exact ⟨b, hb, hcond.1.1, hcond.1.2, hcond.2, (hiff b).mp hover⟩
  · rw [if_neg hc]
    simp only [reduceCtorEq, false_iff, not_exists]
    intro b hball
    obtain ⟨hb, hbp, hbd, hbs, hover⟩ := hball
    apply hc
    rw [List.any_eq_true]
    refine ⟨b, ?_, (hiff b).mpr hover⟩
    rw [confirmedBookingsFor, List.mem_filter]
    exact ⟨hb, by simp [hbp, hbd, hbs]⟩

/-! Helper lemmas about the scale-2 cast. -/

lemma isCent_iff (q : ℚ) : isCent q ↔ ∃ z : ℤ, q * 100 = (z : ℚ) := by
  constructor
  · intro h
    exact ⟨(q * 100).num, ((Rat.den_eq_one_iff _).mp h).symm⟩
  · rintro ⟨z, hz⟩
    rw [isCent, hz]
    exact Rat.den_intCast z

lemma round2_eq_self {q : ℚ} (h : isCent q) : round2 q = q := by
  obtain ⟨z, hz⟩ := (isCent_iff q).mp h
  have hq : q = (z : ℚ) / 100 := by
    rw [eq_div_iff (by norm_num : (100 : ℚ) ≠ 0)]
    exact hz
  rw [round2]
  by_cases h0 : 0 ≤ q
  · rw [if_pos h0, hz, add_comm, Int.floor_add_int,
      show ⌊(1/2 : ℚ)⌋ = 0 by norm_num, zero_add]
    exact hq.symm
  · rw [if_neg h0,
      show -(q * 100) = (((-z : ℤ) : ℚ)) by push_cast; linarith [hz],
      add_comm, Int.floor_add_int, show ⌊(1/2 : ℚ)⌋ = 0 by norm_num, zero_add]
    push_cast
    rw [hq]
    ring

lemma isCent_round2 (q : ℚ) : isCent (round2 q) := by
  rw [isCent_iff, round2]
  by_cases h0 : 0 ≤ q
  · refine ⟨⌊q * 100 + 1/2⌋, ?_⟩
    rw [if_pos h0]
    field_simp
  · refine ⟨-⌊-(q * 100) + 1/2⌋, ?_⟩
    rw [if_neg h0]
    push_cast
    field_simp

lemma isCent_add {a b : ℚ} (ha : isCent a) (hb : isCent b) : isCent (a + b) := by
  rw [isCent_iff] at ha hb ⊢
  obtain ⟨x, hx⟩ := ha
  obtain ⟨y, hy⟩ := hb
  exact ⟨x + y, by push_cast; rw [add_mul, hx, hy]⟩

lemma isCent_neg {a : ℚ} (ha : isCent a) : isCent (-a) := by
  rw [isCent_iff] at ha ⊢
  obtain ⟨x, hx⟩ := ha
  exact ⟨-x, by push_cast; rw [neg_mul, hx]⟩

lemma round2_mono {x y : ℚ} (h : x ≤ y) : round2 x ≤ round2 y := by
  rw [round2, round2]
  by_cases hx : 0 ≤ x <;> by_cases hy : 0 ≤ y
  · rw [if_pos hx, if_pos hy]
    have hf : ((⌊x * 100 + 1/2⌋ : ℤ) : ℚ) ≤ ((⌊y * 100 + 1/2⌋ : ℤ) : ℚ) := by
      exact_mod_cast Int.floor_le_floor (by linarith)
    linarith
  · exact absurd (le_trans hx h) hy
  · rw [if_neg hx, if_pos hy]
    have h1 : (0 : ℚ) ≤ ((⌊-(x * 100) + 1/2⌋ : ℤ) : ℚ) := by
      exact_mod_cast Int.le_floor.mpr (by push_cast; linarith [not_le.mp hx])
    have h2 : (0 : ℚ) ≤ ((⌊y * 100 + 1/2⌋ : ℤ) : ℚ) := by
      exact_mod_cast Int.le_floor.mpr (by push_cast; linarith)
    linarith
  · rw [if_neg hx, if_neg hy]
    have hf : ((⌊-(y * 100) + 1/2⌋ : ℤ) : ℚ) ≤ ((⌊-(x * 100) + 1/2⌋ : ℤ) : ℚ) := by
      exact_mod_cast Int.floor_le_floor (by linarith)
    linarith

/-! Helper lemmas about the wallet ledger. -/

lemma txSumL_append (ts : List WalletTransaction) (t : WalletTransaction) (wid : ℕ) :
    txSumL (ts ++ [t]) wid
      = txSumL ts wid + if t.wallet_id = wid then t.amount else 0 := by
  by_cases h : t.wallet_id = wid <;>
    simp [txSumL, List.filter_append, h]

lemma txSumL_eq_zero {ts : List WalletTransaction} {wid : ℕ}
    (h : ∀ t ∈ ts, t.wallet_id ≠ wid) : txSumL ts wid = 0 := by
  rw [txSumL, List.filter_eq_nil_iff.mpr]
  · simp
  · intro t ht
    simp [h t ht]

lemma getWalletByUserId_recordTxn (s : WalletDB) (t : WalletTransaction) (d : ℚ) (u : ℕ) :
    getWalletByUserId (recordTxn s t d) u
      = (getWalletByUserId s u).map
          fun w => if w.id == t.wallet_id
            then { w with balance := round2 (w.balance + d) } else w := by
  rw [getWalletByUserId, recordTxn]
  simp only [List.find?_map]
  have hcomp : ((fun w : Wallet => w.user_id == u) ∘ fun w =>
      if w.id == t.wallet_id then { w with balance := round2 (w.balance + d) } else w)
      = fun w : Wallet => w.user_id == u := by
    funext w
    by_cases h : w.id == t.wallet_id <;> simp [Function.comp, h]
  rw [hcomp, getWalletByUserId]

lemma walletWF_recordTxn {s : WalletDB} (t : WalletTransaction) (delta : ℚ)
    (hwf : WalletWF s) (ht : t.wallet_id < s.nextWalletId)
    (hamt : t.amount = round2 delta) (hcent : isCent delta) :
    WalletWF (recordTxn s t delta) := by
  constructor
  · intro w hw
    rw [recordTxn] at hw
    simp only [List.mem_map] at hw
    obtain ⟨w0, hw0, rfl⟩ := hw
    by_cases h : w0.id == t.wallet_id <;>
      simpa [recordTxn, h] using hwf.walletIdLt w0 hw0
  · intro tr htr
    rw [recordTxn] at htr
    simp only [List.mem_append, List.mem_singleton] at htr
    rcases htr with h | rfl
    · exact hwf.txnIdLt tr h
    · exact ht
  · intro w hw
    rw [recordTxn] at hw
    simp only [List.mem_map] at hw
    obtain ⟨w0, hw0, rfl⟩ := hw
    by_cases h : w0.id == t.wallet_id
    · rw [if_pos h]
      exact isCent_round2 _
    · rw [if_neg h]
      exact hwf.balCent w0 hw0
  · intro w hw
    rw [recordTxn] at hw
    simp only [List.mem_map] at hw
    obtain ⟨w0, hw0, rfl⟩ := hw
    have hledger := hwf.ledger w0 hw0
    have htx : txSum (recordTxn s t delta) w0.id
        = txSum s w0.id + if t.wallet_id = w0.id then t.amount else 0 := by
      rw [txSum, txSum, recordTxn]
      exact txSumL_append _ _ _
    by_cases h : w0.id == t.wallet_id
    · have hid : t.wallet_id = w0.id := (beq_iff_eq.mp h).symm
      rw [if_pos h]
      show round2 (w0.balance + delta) = txSum (recordTxn s t delta) w0.id
      rw [htx, if_pos hid, hamt, round2_eq_self hcent,
        round2_eq_self (isCent_add (hwf.balCent w0 hw0) hcent), hledger]
    · have hid : ¬ t.wallet_id = w0.id := fun hh => h (beq_iff_eq.mpr hh.symm)
      rw [if_neg h, htx, if_neg hid, add_zero]
      exact hledger

lemma walletWF_getOrCreateWallet {s : WalletDB} (u : ℕ) (hwf : WalletWF s) :
    WalletWF (getOrCreateWallet s u).1
      ∧ (getOrCreateWallet s u).2.id < (getOrCreateWallet s u).1.nextWalletId
      ∧ (getOrCreateWallet s u).1.transactions = s.transactions := by
  rw [getOrCreateWallet]
  cases hg : getWalletByUserId s u with
  | some w =>
    exact ⟨hwf, hwf.walletIdLt w (List.mem_of_find?_eq_some hg), rfl⟩
  | none =>
    refine ⟨⟨?_, ?_, ?_, ?_⟩, Nat.lt_succ_self _, rfl⟩
    · intro w hw
      simp only [List.mem_append, List.mem_singleton] at hw
      rcases hw with h | rfl
      · exact Nat.lt_succ_of_lt (hwf.walletIdLt w h)
      · exact Nat.lt_succ_self _
    · intro t ht
      exact Nat.lt_succ_of_lt (hwf.txnIdLt t ht)
    · intro w hw
      simp only [List.mem_append, List.mem_singleton] at hw
      rcases hw with h | rfl
      · exact hwf.balCent w h
      · exact (by decide : isCent (0 : ℚ))
    · intro w hw
      simp only [List.mem_append, List.mem_singleton] at hw
      rcases hw with h | rfl
      · exact hwf.ledger w h
      · exact (txSumL_eq_zero fun t ht => Nat.ne_of_lt (hwf.txnIdLt t ht)).symm

lemma walletWF_topUpWallet {s : WalletDB} (u : ℕ) (a : ℚ) (hwf : WalletWF s)
    (hca : isCent a) : WalletWF (topUpWallet s u a).1 := by
  obtain ⟨h1, h2, _⟩ := walletWF_getOrCreateWallet u hwf
  exact walletWF_recordTxn _ a h1 h2 rfl hca

lemma walletWF_creditWallet {s : WalletDB} (u : ℕ) (a : ℚ) (ty : TransactionType)
    (hwf : WalletWF s) (hca : isCent a) : WalletWF (creditWallet s u a ty).1 := by
  obtain ⟨h1, h2, _⟩ := walletWF_getOrCreateWallet u hwf
  exact walletWF_recordTxn _ a h1 h2 rfl hca

lemma walletWF_debitWallet {s : WalletDB} (u : ℕ) (a : ℚ) (ty : TransactionType)
    (r : WalletDB × WalletTransaction) (hwf : WalletWF s) (hca : isCent a)
    (h : debitWallet s u a ty = .ok r) : WalletWF r.1 := by
  rw [debitWallet] at h
  cases hg : getWalletByUserId s u with
  | none => rw [hg] at h; exact absurd h (by simp)
  | some w =>
    rw [hg] at h
    dsimp only at h
    by_cases hc : checkWalletBalance s u a
    · rw [if_pos hc] at h
      obtain rfl : (recordTxn s { wallet_id := w.id, type := ty, amount := round2 (-a) } (-a),
          ({ wallet_id := w.id, type := ty, amount := round2 (-a) } : WalletTransaction)) = r :=
        Except.ok.inj h
      exact walletWF_recordTxn _ (-a) hwf
        (hwf.walletIdLt w (List.mem_of_find?_eq_some hg)) rfl (isCent_neg hca)
    · rw [if_neg hc] at h
      exact absurd h (by simp)

lemma walletWF_applyOp {s : WalletDB} (op : WalletOp) (hwf : WalletWF s)
    (hca : isCent op.amount) : WalletWF (applyOp s op) := by
  cases op with
  | topUp u a => exact walletWF_topUpWallet u a hwf hca
  | credit u a ty => exact walletWF_creditWallet u a ty hwf hca
  | debit u a ty =>
    rw [applyOp]
    cases h : debitWallet s u a ty with
    | ok r => exact walletWF_debitWallet u a ty r hwf hca h
    | error _ => exact hwf

lemma walletWF_applyOps (ops : List WalletOp) :
    ∀ s : WalletDB, WalletWF s → (∀ op ∈ ops, isCent op.amount) →
      WalletWF (applyOps s ops) := by
  induction ops with
  | nil => intro s hwf _; exact hwf
  | cons op rest ih =>
    intro s hwf hops
    exact ih (applyOp s op) (walletWF_applyOp op hwf (hops op (by simp)))
      fun o ho => hops o (by simp [ho])

lemma walletWF_initial : WalletWF initialWalletDB := by
  refine ⟨?_, ?_, ?_, ?_⟩ <;> intro x hx <;> simp [initialWalletDB] at hx

lemma getOrCreateWallet_transactions (s : WalletDB) (u : ℕ) :
    (getOrCreateWallet s u).1.transactions = s.transactions := by
  rw [getOrCreateWallet]
  cases hg : getWalletByUserId s u <;> rfl

lemma getOrCreateWallet_of_some {s : WalletDB} {u : ℕ} {w : Wallet}
    (hw : getWalletByUserId s u = some w) : getOrCreateWallet s u = (s, w) := by
  rw [getOrCreateWallet, hw]

lemma topUpWallet_transactions (s : WalletDB) (u : ℕ) (a : ℚ) :
    (topUpWallet s u a).1.transactions = s.transactions ++ [(topUpWallet s u a).2] := by
  rw [topUpWallet]
  show (recordTxn (getOrCreateWallet s u).1 _ a).transactions = _
  rw [recordTxn]
  rw [getOrCreateWallet_transactions]

lemma creditWallet_transactions (s : WalletDB) (u : ℕ) (a : ℚ) (ty : TransactionType) :
    (creditWallet s u a ty).1.transactions
      = s.transactions ++ [(creditWallet s u a ty).2] := by
  rw [creditWallet]
  show (recordTxn (getOrCreateWallet s u).1 _ a).transactions = _
  rw [recordTxn]
  rw [getOrCreateWallet_transactions]

lemma topUpWallet_balance {s : WalletDB} {u : ℕ} (a : ℚ) {w : Wallet}
    (hw : getWalletByUserId s u = some w) :
    getWalletByUserId (topUpWallet s u a).1 u
      = some { w with balance := round2 (w.balance + a) } := by
  rw [topUpWallet, getOrCreateWallet_of_some hw]
  show getWalletByUserId
    (recordTxn s { wallet_id := w.id, type := .topup, amount := round2 a } a) u = _
  rw [getWalletByUserId_recordTxn, hw]
  simp

lemma creditWallet_balance {s : WalletDB} {u : ℕ} (a : ℚ) (ty : TransactionType) {w : Wallet}
    (hw : getWalletByUserId s u = some w) :
    getWalletByUserId (creditWallet s u a ty).1 u
      = some { w with balance := round2 (w.balance + a) } := by
  rw [creditWallet, getOrCreateWallet_of_some hw]
  show getWalletByUserId
    (recordTxn s { wallet_id := w.id, type := ty, amount := round2 a } a) u = _
  rw [getWalletByUserId_recordTxn, hw]
  simp

lemma debitWallet_ok_spec {s : WalletDB} {u : ℕ} {a : ℚ} {ty : TransactionType}
    {r : WalletDB × WalletTransaction} (h : debitWallet s u a ty = .ok r) :
    r.1.transactions = s.transactions ++ [r.2]
      ∧ r.2.amount = round2 (-a)
      ∧ checkWalletBalance s u a = true
      ∧ ∀ w, getWalletByUserId s u = some w →
          getWalletByUserId r.1 u = some { w with balance := round2 (w.balance + -a) } := by
  rw [debitWallet] at h
  cases hg : getWalletByUserId s u with
  | none => rw [hg] at h; exact absurd h (by simp)
  | some w0 =>
    rw [hg] at h
    dsimp only at h
    by_cases hc : checkWalletBalance s u a
    · rw [if_pos hc] at h
      obtain rfl := Except.ok.inj h
      refine ⟨rfl, rfl, hc, ?_⟩
      dsimp only
      intro w hw
      obtain rfl : w0 = w := Option.some.inj hw
      rw [getWalletByUserId_recordTxn, hg]
      simp
    · rw [if_neg hc] at h
      exact absurd h (by simp)

/-- C2 (amended): for operation amounts of the currency scale (whole cents,
on which the numeric(15, 2) cast is the identity) the ledger is consistent:
after any sequence of topUpWallet, debitWallet and creditWallet operations
starting from the initial store every wallet's balance equals the sum of
its transactions' amounts, and each operation inserts exactly one
transaction whose amount is the signed delta it applies to the balance.
For sub-cent amounts the transaction insert and the balance update round
independently and the invariant can break. -/
theorem walletOps_ledger_consistency :
    (∀ ops : List WalletOp, (∀ op ∈ ops, isCent op.amount) →
        ledgerConsistent (applyOps initialWalletDB ops))
    ∧ (∀ (s : WalletDB) (u : ℕ) (a : ℚ), isCent a →
        (topUpWallet s u a).1.transactions = s.transactions ++ [(topUpWallet s u a).2]
        ∧ (topUpWallet s u a).2.amount = a
        ∧ ∀ w, getWalletByUserId s u = some w → isCent w.balance →
            getWalletByUserId (topUpWallet s u a).1 u
              = some { w with balance := w.balance + a })
    ∧ (∀ (s : WalletDB) (u : ℕ) (a : ℚ) (ty : TransactionType), isCent a →
        (creditWallet s u a ty).1.transactions
            = s.transactions ++ [(creditWallet s u a ty).2]
        ∧ (creditWallet s u a ty).2.amount = a
        ∧ ∀ w, getWalletByUserId s u = some w → isCent w.balance →
            getWalletByUserId (creditWallet s u a ty).1 u
              = some { w with balance := w.balance + a })
    ∧ (∀ (s : WalletDB) (u : ℕ) (a : ℚ) (ty : TransactionType)
          (r : WalletDB × WalletTransaction), isCent a → debitWallet s u a ty = .ok r →
        r.1.transactions = s.transactions ++ [r.2]
        ∧ r.2.amount = -a
        ∧ ∀ w, getWalletByUserId s u = some w → isCent w.balance →
            getWalletByUserId r.1 u = some { w with balance := w.balance - a }) := by
  refine ⟨?_, ?_, ?_, ?_⟩
  · intro ops hops
    exact (walletWF_applyOps ops initialWalletDB walletWF_initial hops).ledger
  · intro s u a hca
    refine ⟨topUpWallet_transactions s u a, round2_eq_self hca, ?_⟩
    intro w hw hcb
    rw [topUpWallet_balance a hw, round2_eq_self (isCent_add hcb hca)]
  · intro s u a ty hca
    refine ⟨creditWallet_transactions s u a ty, round2_eq_self hca, ?_⟩
    intro w hw hcb
    rw [creditWallet_balance a ty hw, round2_eq_self (isCent_add hcb hca)]
  · intro s u a ty r hca h
    obtain ⟨h1, h2, -, h4⟩ := debitWallet_ok_spec h
    refine ⟨h1, ?_, ?_⟩
    · rw [h2]
      exact round2_eq_self (isCent_neg hca)
    · intro w hw hcb
      rw [h4 w hw, round2_eq_self (isCent_add hcb (isCent_neg hca)), ← sub_eq_add_neg]

/-- C3: a debitWallet call on an existing wallet whose amount exceeds
balance plus max_negative_balance fails with InsufficientBalance, and the
store is unchanged: the balance keeps its value and no transaction row is
inserted. -/
theorem debitWallet_insufficient
    (s : WalletDB) (u : ℕ) (a : ℚ) (ty : TransactionType) (w : Wallet)
    (hw : getWalletByUserId s u = some w)
    (hgt : w.balance + w.max_negative_balance < a) :
    debitWallet s u a ty = .error .insufficientBalance
      ∧ applyOp s (.debit u a ty) = s := by
  have hc : checkWalletBalance s u a = false := by
    rw [checkWalletBalance, hw]
    simp [not_le.mpr hgt]
  have herr : debitWallet s u a ty = .error .insufficientBalance := by
    rw [debitWallet, hw]
    dsimp only
    rw [if_neg (by simp [hc])]
  refine ⟨herr, ?_⟩
  rw [applyOp, herr]

/-- C6: after a successful debitWallet call the debited wallet's stored
balance is the numeric(15, 2) cast of old balance minus amount; the exact
difference respects the negated max_negative_balance because the
availability check runs before the mutation, and so does the stored
balance whenever max_negative_balance carries the column's scale. -/
theorem debitWallet_balance_floor
    (s : WalletDB) (u : ℕ) (a : ℚ) (ty : TransactionType)
    (r : WalletDB × WalletTransaction) (w : Wallet)
    (hw : getWalletByUserId s u = some w)
    (hok : debitWallet s u a ty = .ok r) :
    getWalletByUserId r.1 u = some { w with balance := round2 (w.balance - a) }
      ∧ -w.max_negative_balance ≤ w.balance - a
      ∧ (isCent w.max_negative_balance →
          -w.max_negative_balance ≤ round2 (w.balance - a)) := by
  obtain ⟨-, -, hc, hbal⟩ := debitWallet_ok_spec hok
  rw [checkWalletBalance, hw] at hc
  have hge : a ≤ w.balance + w.max_negative_balance := by
    simpa using hc
  have hfloor : -w.max_negative_balance ≤ w.balance - a := by linarith
  refine ⟨?_, hfloor, ?_⟩
  · have hb := hbal w hw
    rw [sub_eq_add_neg]
    exact hb
  · intro hcm
    have h1 : round2 (-w.max_negative_balance) ≤ round2 (w.balance - a) :=
      round2_mono hfloor
    rw [round2_eq_self (isCent_neg hcm)] at h1
    exact h1

/-- C5 (amended): the wallet operations perform no validation of the
amount: a topUpWallet or creditWallet call with amount at most 0 still
inserts exactly one transaction carrying the scale-2 cast of that amount
and stores the cast of balance plus amount, and a debitWallet call with
amount at most 0 succeeds whenever the available balance is nonnegative,
increasing the balance; no InvalidAmount failure exists in these
handlers. -/
theorem wallet_ops_accept_nonpositive
    (s : WalletDB) (u : ℕ) (a : ℚ) (ty : TransactionType) (w : Wallet)
    (ha : a ≤ 0)
    (hw : getWalletByUserId s u = some w)
    (hmnb : 0 ≤ w.balance + w.max_negative_balance) :
    ((topUpWallet s u a).1.transactions = s.transactions ++ [(topUpWallet s u a).2]
      ∧ (topUpWallet s u a).2.amount = round2 a
      ∧ getWalletByUserId (topUpWallet s u a).1 u
          = some { w with balance := round2 (w.balance + a) })
    ∧ ((creditWallet s u a ty).1.transactions
          = s.transactions ++ [(creditWallet s u a ty).2]
      ∧ (creditWallet s u a ty).2.amount = round2 a
      ∧ getWalletByUserId (creditWallet s u a ty).1 u
          = some { w with balance := round2 (w.balance + a) })
    ∧ ∃ r, debitWallet s u a ty = .ok r ∧ r.2.amount = round2 (-a)
        ∧ getWalletByUserId r.1 u
            = some { w with balance := round2 (w.balance - a) } := by
  have hc : checkWalletBalance s u a = true := by
    rw [checkWalletBalance, hw]
    simp only [ge_iff_le, decide_eq_true_eq]
    linarith
  have hok : debitWallet s u a ty
      = .ok (recordTxn s { wallet_id := w.id, type := ty, amount := round2 (-a) } (-a),
          { wallet_id := w.id, type := ty, amount := round2 (-a) }) := by
    rw [debitWallet, hw]
    dsimp only
    rw [if_pos hc]
  refine ⟨⟨topUpWallet_transactions s u a, rfl, topUpWallet_balance a hw⟩,
    ⟨creditWallet_transactions s u a ty, rfl, creditWallet_balance a ty hw⟩,
    ⟨_, hok, rfl, ?_⟩⟩
  have hb := (debitWallet_ok_spec hok).2.2.2 w hw
  rw [sub_eq_add_neg]
  exact hb

lemma jle_nan_right (x : JSNum) : x.jle .nan = false := by cases x <;> rfl

lemma jle_nan_left (x : JSNum) : JSNum.nan.jle x = false := by cases x <;> rfl

lemma jlt_nan_right (x : JSNum) : x.jlt .nan = false := by cases x <;> rfl

lemma jlt_nan_left (x : JSNum) : JSNum.nan.jlt x = false := by cases x <;> rfl

lemma sub_nan_right (x : JSNum) : x.sub .nan = .nan := by cases x <;> rfl

lemma sub_nan_left (x : JSNum) : JSNum.nan.sub x = .nan := by cases x <;> rfl

lemma mul_nan_right (x : JSNum) : x.mul .nan = .nan := by cases x <;> rfl

lemma div_nan_left (x : JSNum) : JSNum.nan.div x = .nan := by cases x <;> rfl

/-- C4: a successful createBooking returns a booking with status pending
whose total_amount is the found pitch's hourly rate times the duration
(end minutes minus start minutes over 60, fractional hours allowed),
rounded to 2 decimal places by the numeric(10, 2) column. -/
theorem createBooking_pending_and_total
    (db : BookingDB) (input : CreateBookingInput) (db2 : BookingDB) (bk : BookingRow)
    (s e : ℚ)
    (hs : timeToMinutes input.start_time = .num s)
    (he : timeToMinutes input.end_time = .num e)
    (hok : createBooking db input = .ok (db2, bk)) :
    bk.status = .pending
      ∧ ∃ pf : Pitch × Facility,
          findActivePitchWithFacility db input.pitch_id = some pf
          ∧ bk.total_amount = .num (round2 (pf.1.hourly_rate * ((e - s) / 60))) := by
  rw [createBooking] at hok
  cases hp : db.users.find? fun u => u.id == input.player_id && u.is_active with
  | none => rw [hp] at hok; exact absurd hok (by simp)
  | some u0 =>
    rw [hp] at hok
    dsimp only at hok
    cases hpf : findActivePitchWithFacility db input.pitch_id with
    | none => rw [hpf] at hok; exact absurd hok (by simp)
    | some pf =>
      obtain ⟨pd, fd⟩ := pf
      rw [hpf] at hok
      dsimp only at hok
      by_cases hle : (timeToMinutes input.end_time).jle (timeToMinutes input.start_time) = true
      · rw [if_pos hle] at hok; exact absurd hok (by simp)
      · rw [if_neg hle] at hok
        by_cases hconf : (confirmedBookingsFor db input.pitch_id
            (normalizeDate input.booking_date)).any
              (overlapsNew (timeToMinutes input.start_time)
                (timeToMinutes input.end_time)) = true
        · rw [if_pos hconf] at hok; exact absurd hok (by simp)
        · rw [if_neg hconf] at hok
          obtain ⟨-, rfl⟩ := Prod.mk.injEq .. ▸ Except.ok.inj hok
          refine ⟨rfl, (pd, fd), rfl, ?_⟩
          show (((JSNum.num pd.hourly_rate).mul
            (((timeToMinutes input.end_time).sub (timeToMinutes input.start_time)).div
              (.num 60)))).store2 = _
          rw [hs, he]
          rfl

/-- C9: when the start or end time fails to parse as two numeric components
the computed minutes are NaN, every comparison against NaN is false, so the
time-range check and the conflict check both pass and the booking is
inserted with status pending and a NaN total_amount. -/
theorem createBooking_nan_times
    (db : BookingDB) (input : CreateBookingInput) (u0 : User) (pf : Pitch × Facility)
    (hp : db.users.find? (fun u => u.id == input.player_id && u.is_active) = some u0)
    (hpf : findActivePitchWithFacility db input.pitch_id = some pf)
    (hnan : timeToMinutes input.start_time = .nan ∨ timeToMinutes input.end_time = .nan) :
    ∃ r : BookingDB × BookingRow, createBooking db input = .ok r
      ∧ r.2.status = .pending ∧ r.2.total_amount = .nan := by
  obtain ⟨pd, fd⟩ := pf
  have hle : (timeToMinutes input.end_time).jle (timeToMinutes input.start_time) = false := by
    rcases hnan with h | h
    · rw [h, jle_nan_right]
    · rw [h, jle_nan_left]
  have hconf : (confirmedBookingsFor db input.pitch_id
      (normalizeDate input.booking_date)).any
        (overlapsNew (timeToMinutes input.start_time) (timeToMinutes input.end_time))
      = false := by
    rw [List.any_eq_false]
    intro b hb
    rw [overlapsNew]
    rcases hnan with h | h
    · rw [h, jlt_nan_left]
      simp
    · rw [h, jlt_nan_right]
      simp
  have htot : ((JSNum.num pd.hourly_rate).mul
      (((timeToMinutes input.end_time).sub (timeToMinutes input.start_time)).div
        (.num 60))).store2 = .nan := by
    rcases hnan with h | h
    · rw [h, sub_nan_right, div_nan_left, mul_nan_right]
      rfl
    · rw [h, sub_nan_left, div_nan_left, mul_nan_right]
      rfl
  rw [createBooking, hp, hpf]
  dsimp only
  rw [if_neg (by simp [hle]), if_neg (by simp [hconf])]
  exact ⟨_, rfl, rfl, htot⟩

/-- C10 (amended): adjustWalletBalance applies any amount, positive, zero
or negative, with no sign, magnitude or available-balance validation: it
adds the amount to the wallet's balance (possibly taking it below the
negated max_negative_balance) and inserts exactly one admin_adjustment
transaction of that amount, preserving the balance-equals-sum-of-
transactions property, for amounts and balances of the currency scale
(whole cents); for sub-cent amounts the two independent numeric(15, 2)
casts of the transaction insert and the balance update can store a
transaction differing from the applied delta and break the ledger.  The
uniqueness hypotheses mirror the unique constraint on wallets.user_id and
the serial primary key. -/
theorem adjustWalletBalance_unvalidated
    (s : WalletDB) (u : ℕ) (a : ℚ) (w : Wallet)
    (hw : getWalletByUserId s u = some w)
    (husers : (s.wallets.map Wallet.user_id).Nodup)
    (hids : (s.wallets.map Wallet.id).Nodup)
    (hledger : ledgerConsistent s)
    (hca : isCent a) (hcb : isCent w.balance) :
    ∃ s2 : WalletDB, adjustWalletBalance s u a = .ok s2
      ∧ s2.transactions = s.transactions
          ++ [{ wallet_id := w.id, type := .admin_adjustment, amount := a }]
      ∧ getWalletByUserId s2 u = some { w with balance := w.balance + a }
      ∧ ledgerConsistent s2 := by
  have hwfind : s.wallets.find? (fun x => x.user_id == u) = some w := hw
  have hwmem : w ∈ s.wallets := List.mem_of_find?_eq_some hwfind
  have hwu' : w.user_id = u := by
    have h := List.find?_some hwfind
    simpa using h
  have hwu : (w.user_id == u) = true := beq_iff_eq.mpr hwu'
  have hra : round2 a = a := round2_eq_self hca
  have hrb : round2 (w.balance + a) = w.balance + a :=
    round2_eq_self (isCent_add hcb hca)
  rw [adjustWalletBalance, hw]
  dsimp only
  refine ⟨_, rfl, ?_, ?_, ?_⟩
  · show s.transactions ++ _ = _
    rw [hra]
  · rw [getWalletByUserId]
    dsimp only
    rw [List.find?_map]
    have hcomp : ((fun x : Wallet => x.user_id == u) ∘ fun x =>
        if x.user_id == u then { x with balance := round2 (w.balance + a) } else x)
        = fun x : Wallet => x.user_id == u := by
      funext x
      by_cases h : x.user_id == u <;> simp [Function.comp, h]
    rw [hcomp, hwfind]
    simp [Option.map, hwu, hrb]
  · intro w2 hw2
    dsimp only at hw2
    simp only [List.mem_map] at hw2
    obtain ⟨w0, hw0, rfl⟩ := hw2
    have htx : ∀ wid : ℕ,
        txSumL (s.transactions ++
            [{ wallet_id := w.id, type := .admin_adjustment, amount := round2 a }]) wid
          = txSum s wid + if w.id = wid then round2 a else 0 := by
      intro wid
      rw [txSum]
      exact txSumL_append _ _ _
    by_cases h : w0.user_id == u
    · have hw0w : w0 = w :=
        List.inj_on_of_nodup_map husers hw0 hwmem (by rw [beq_iff_eq.mp h, hwu'])
      subst hw0w
      rw [if_pos h]
      show round2 (w0.balance + a) = txSumL _ _
      rw [htx]
      show round2 (w0.balance + a) = txSum s w0.id + if w0.id = w0.id then round2 a else 0
      rw [if_pos rfl, hra, round2_eq_self (isCent_add hcb hca), hledger w0 hw0]
    · rw [if_neg h]
      show w0.balance = txSumL _ w0.id
      rw [htx]
      have hne : ¬ w.id = w0.id := by
        intro hid
        have hww : w = w0 := List.inj_on_of_nodup_map hids hwmem hw0 hid
        rw [hww] at hwu
        exact h hwu
      rw [if_neg hne, add_zero]
      exact hledger w0 hw0

lemma mem_getFinancialSettlements (users : List User) (wallets : List Wallet)
    (e : SettlementEntry) :
    e ∈ getFinancialSettlements users wallets ↔
      ∃ u ∈ users, u.role = .facility_owner
        ∧ ∃ w ∈ wallets, w.user_id = u.id ∧ e = settlementRow u w := by
  rw [getFinancialSettlements, List.mem_flatMap]
  constructor
  · rintro ⟨u, hu, he⟩
    by_cases hr : u.role == UserRole.facility_owner
    · rw [if_pos hr, List.mem_map] at he
      obtain ⟨w, hwmem, rfl⟩ := he
      rw [List.mem_filter] at hwmem
      exact ⟨u, hu, beq_iff_eq.mp hr, w, hwmem.1, beq_iff_eq.mp hwmem.2, rfl⟩
    · rw [if_neg hr] at he
      simp at he
  · rintro ⟨u, hu, hr, w, hwm, hwu, rfl⟩
    refine ⟨u, hu, ?_⟩
    rw [if_pos (beq_iff_eq.mpr hr), List.mem_map]
    exact ⟨w, List.mem_filter.mpr ⟨hwm, beq_iff_eq.mpr hwu⟩, rfl⟩

/-- C7 (amended): getFinancialSettlements returns one entry per
facility-owner and wallet pair.  The entry is a payout of the balance when
the balance is positive, and a collection of the excess beyond the negative
limit when the balance is below it; in the remaining range the function
still returns an entry for the owner, with settlementAmount 0 and
settlementType payout, rather than omitting it. -/
theorem settlements_entry_characterization (users : List User) (wallets : List Wallet)
    (e : SettlementEntry)
    (hmnb : ∀ w ∈ wallets, 0 ≤ w.max_negative_balance) :
    e ∈ getFinancialSettlements users wallets ↔
      ∃ u ∈ users, ∃ w ∈ wallets, u.role = .facility_owner ∧ w.user_id = u.id
        ∧ e.facilityOwnerId = u.id ∧ e.ownerName = u.full_name ∧ e.balance = w.balance
        ∧ ((0 < w.balance ∧ e.settlementAmount = w.balance
              ∧ e.settlementType = .payout)
          ∨ (w.balance < -w.max_negative_balance
              ∧ e.settlementAmount = |w.balance + w.max_negative_balance|
              ∧ e.settlementType = .collection)
          ∨ (-w.max_negative_balance ≤ w.balance ∧ w.balance ≤ 0
              ∧ e.settlementAmount = 0 ∧ e.settlementType = .payout)) := by
  rw [mem_getFinancialSettlements]
  constructor
  · rintro ⟨u, hu, hr, w, hwm, hwu, rfl⟩
    refine ⟨u, hu, w, hwm, hr, hwu, ?_⟩
    simp only [settlementRow]
    by_cases h1 : 0 < w.balance
    · rw [if_pos h1]
      exact ⟨rfl, rfl, rfl, Or.inl ⟨h1, rfl, rfl⟩⟩
    · rw [if_neg h1]
      by_cases h2 : w.balance < -w.max_negative_balance
      · rw [if_pos h2]
        exact ⟨rfl, rfl, rfl, Or.inr (Or.inl ⟨h2, rfl, rfl⟩)⟩
      · rw [if_neg h2]
        exact ⟨rfl, rfl, rfl, Or.inr (Or.inr
          ⟨not_lt.mp h2, not_lt.mp h1, rfl, rfl⟩)⟩
  · rintro ⟨u, hu, w, hwm, hr, hwu, hid, hname, hbal, hcase⟩
    refine ⟨u, hu, hr, w, hwm, hwu, ?_⟩
    obtain ⟨a1, a2, a3, a4, a5⟩ := e
    dsimp only at hid hname hbal hcase
    subst hid
    subst hname
    subst hbal
    rcases hcase with ⟨h1, ha, ht⟩ | ⟨h1, ha, ht⟩ | ⟨h1, h2, ha, ht⟩ <;>
      subst ha <;> subst ht <;> simp only [settlementRow]
    · rw [if_pos h1]
    · have h0 : ¬ 0 < w.balance :=
        not_lt.mpr (le_of_lt (lt_of_lt_of_le h1 (neg_nonpos.mpr (hmnb w hwm))))
      rw [if_neg h0, if_pos h1]
    · rw [if_neg (not_lt.mpr h2), if_neg (not_lt.mpr h1)]

lemma sum_map_flatMap {α β : Type} (l : List α) (h : α → List β) (g : β → ℚ) :
    ((l.flatMap h).map g).sum = (l.map fun x => ((h x).map g).sum).sum := by
  induction l with
  | nil => simp
  | cons x xs ih => simp [ih]

lemma sum_map_eq_of_const {α : Type} (l : List α) (f : α → ℚ) (c : ℚ)
    (h : ∀ x ∈ l, f x = c) : (l.map f).sum = l.length * c := by
  induction l with
  | nil => simp
  | cons x xs ih =>
    rw [List.map_cons, List.sum_cons, h x (by simp),
      ih fun y hy => h y (by simp [hy]), List.length_cons]
    push_cast
    ring

lemma leftRows_length {α : Type} (l : List α) : (leftRows l).length = max l.length 1 := by
  rw [leftRows]
  by_cases h : l.isEmpty
  · rw [if_pos h]
    simp [List.isEmpty_iff.mp h]
  · rw [if_neg h]
    have hne : l ≠ [] := by simpa [List.isEmpty_iff] using h
    have h1 : 1 ≤ l.length := List.length_pos.mpr hne
    simp [Nat.max_eq_left h1]

lemma sum_ite_filter (ts : List WalletTransaction) (wid : ℕ) :
    ((ts.filter fun t => t.wallet_id == wid).map
        fun t => if t.type == TransactionType.booking_payment then t.amount else 0).sum
      = ((ts.filter fun t =>
            t.wallet_id == wid && t.type == TransactionType.booking_payment).map
          WalletTransaction.amount).sum := by
  induction ts with
  | nil => simp
  | cons t ts ih =>
    rw [List.filter_cons, List.filter_cons]
    by_cases h1 : t.wallet_id == wid
    · rw [if_pos h1]
      by_cases h2 : t.type == TransactionType.booking_payment
      · rw [if_pos (by simp [h1, h2]), List.map_cons, List.map_cons,
          List.sum_cons, List.sum_cons, if_pos h2, ih]
      · rw [if_neg (by simp [h2]), List.map_cons, List.sum_cons,
          if_neg h2, ih, zero_add]
    · rw [if_neg h1, if_neg (by simp [h1])]
      exact ih

lemma sum_caseBookingPayment_leftRows (s : WalletDB) (wid : ℕ) :
    ((leftRows (s.transactions.filter fun t => t.wallet_id == wid)).map
      caseBookingPayment).sum = bookingPaymentSum s wid := by
  rw [leftRows]
  by_cases h : (s.transactions.filter fun t => t.wallet_id == wid).isEmpty
  · rw [if_pos h]
    have hnil : s.transactions.filter (fun t => t.wallet_id == wid) = [] :=
      List.isEmpty_iff.mp h
    have hz : s.transactions.filter (fun t =>
        t.wallet_id == wid && t.type == TransactionType.booking_payment) = [] := by
      rw [List.filter_eq_nil_iff]
      intro t ht
      have := List.filter_eq_nil_iff.mp hnil t ht
      simp only [Bool.and_eq_true, not_and]
      intro hc
      exact absurd hc this
    rw [bookingPaymentSum, hz]
    simp [caseBookingPayment]
  · rw [if_neg h, List.map_map]
    have hcomp : (caseBookingPayment ∘ some)
        = fun t : WalletTransaction =>
            if t.type == TransactionType.booking_payment then t.amount else 0 := rfl
    rw [hcomp, bookingPaymentSum]
    exact sum_ite_filter s.transactions wid

lemma find?_of_filter_eq_singleton {α : Type} {p : α → Bool} {l : List α} {x : α}
    (h : l.filter p = [x]) : l.find? p = some x := by
  induction l with
  | nil => simp at h
  | cons y ys ih =>
    by_cases hy : p y
    · rw [List.filter_cons_of_pos hy] at h
      rw [List.cons.injEq] at h
      rw [List.find?_cons_of_pos ys hy, h.1]
    · rw [List.filter_cons_of_neg hy] at h
      rw [List.find?_cons_of_neg ys hy]
      exact ih h

/-- C8 (amended): for a facility-owner user with a unique wallet,
getFacilityWalletSummary contains an entry with the wallet's balance and
owedAmount = 0.85 times the absolute sum of the wallet's booking_payment
transaction amounts (assumed nonpositive) multiplied by the number of
facilities the owner owns (at least 1): the left join against the
facilities table fans the transaction rows out once per facility before the
sum, so for owners of a single facility this is exactly 0.85 times the
absolute sum. -/
theorem summary_owedAmount_formula
    (users : List User) (facilities : List Facility) (s : WalletDB)
    (u : User) (w : Wallet)
    (hu : u ∈ users) (hrole : u.role = .facility_owner)
    (hw : s.wallets.filter (fun x => x.user_id == u.id) = [w])
    (hneg : bookingPaymentSum s w.id ≤ 0) :
    ({ userId := u.id, balance := w.balance,
       owedAmount :=
         ((max (facilities.filter fun f => f.owner_id == u.id).length 1 : ℕ) : ℚ)
           * ((85 : ℚ) / 100 * |bookingPaymentSum s w.id|) } : FacilitySummary)
      ∈ getFacilityWalletSummary users facilities s := by
  have hfind : getWalletByUserId s u.id = some w := find?_of_filter_eq_singleton hw
  rw [getFacilityWalletSummary]
  refine List.mem_map.mpr ⟨u, List.mem_filter.mpr ⟨hu, beq_iff_eq.mpr hrole⟩, ?_⟩
  have htotal : ((summaryJoinRows facilities s u).map
      fun r => caseBookingPayment r.2.2).sum
      = ((max (facilities.filter fun f => f.owner_id == u.id).length 1 : ℕ) : ℚ)
          * bookingPaymentSum s w.id := by
    rw [summaryJoinRows, sum_map_flatMap]
    rw [sum_map_eq_of_const _ _ (bookingPaymentSum s w.id) ?_, leftRows_length]
    intro f? hf
    rw [hw]
    have hlr : leftRows [w] = [some w] := rfl
    rw [hlr, List.flatMap_cons, List.flatMap_nil, List.append_nil, List.map_map]
    have hcomp : ((fun r : Option Facility × Option Wallet × Option WalletTransaction =>
        caseBookingPayment r.2.2) ∘ fun t? => (f?, some w, t?)) = caseBookingPayment := rfl
    rw [hcomp]
    exact sum_caseBookingPayment_leftRows s w.id
  dsimp only
  rw [htotal, hfind]
  rw [FacilitySummary.mk.injEq]
  refine ⟨rfl, rfl, ?_⟩
  rw [abs_of_nonpos hneg]
  ring


/-! Counterexamples and concrete instantiations. -/

/-- C5 counterexample: a topUpWallet call with the nonpositive amount -5 on
an existing wallet does not fail with InvalidAmount; it inserts a topup
transaction of -5 and lowers the balance from 100 to 95, mutating the
store. -/
theorem topUpWallet_negative_amount_counterexample :
    (topUpWallet exWalletDB 7 (-5)).2.amount = -5
      ∧ (topUpWallet exWalletDB 7 (-5)).1.transactions
          = exWalletDB.transactions ++ [{ wallet_id := 1, type := .topup, amount := -5 }]
      ∧ getWalletByUserId (topUpWallet exWalletDB 7 (-5)).1 7
          = some { id := 1, user_id := 7, balance := 95, max_negative_balance := 50 }
      ∧ (topUpWallet exWalletDB 7 (-5)).1 ≠ exWalletDB := by
  decide

/-- C7 counterexample: a facility owner whose balance -5 lies inside the
allowed range (between -10 and 0) still receives a settlement entry, with
settlementAmount 0 and settlementType payout, where the claim says no entry
is returned. -/
theorem settlements_zero_entry_counterexample :
    getFinancialSettlements [exOwner] [exOwnerWallet] = [exZeroEntry]
      ∧ -exOwnerWallet.max_negative_balance ≤ exOwnerWallet.balance
      ∧ exOwnerWallet.balance ≤ 0 := by
  decide

/-- C8 counterexample: an owner of two facilities with a single
booking_payment transaction of -100 is reported with owedAmount 170, twice
the 85 the claim's formula 0.85 times the absolute sum gives, because the
facilities left join duplicates the transaction rows. -/
theorem summary_fanout_counterexample :
    getFacilityWalletSummary [exOwner2] exTwoFacilities exOwner2WalletDB
        = [{ userId := 5, balance := 0, owedAmount := 170 }]
      ∧ (85 : ℚ) / 100 * |(-100 : ℚ)| = 85
      ∧ (170 : ℚ) ≠ 85 := by
  decide

/-- C2 counterexample: the sub-cent sequence topUp(7, -0.01) then
topUp(7, 0.005) leaves the wallet balance at -0.01 (the balance update
-0.01 + 0.005 = -0.005 stores as -0.01, ties away from zero) while the
second transaction row stores as +0.01, so the sum of the wallet's
transaction amounts is 0 and differs from the balance: the ledger
invariant fails in the program for unvalidated sub-cent amounts. -/
theorem walletOps_subcent_counterexample :
    getWalletByUserId (applyOps initialWalletDB
        [.topUp 7 (-1/100), .topUp 7 (1/200)]) 7
        = some { id := 0, user_id := 7, balance := -1/100, max_negative_balance := 0 }
      ∧ txSum (applyOps initialWalletDB [.topUp 7 (-1/100), .topUp 7 (1/200)]) 0 = 0
      ∧ (-1/100 : ℚ) ≠ 0
      ∧ ¬ ledgerConsistent (applyOps initialWalletDB
          [.topUp 7 (-1/100), .topUp 7 (1/200)]) := by
  refine ⟨by decide, by decide, by decide, ?_⟩
  unfold ledgerConsistent
  decide

/-- C10 counterexample: on a ledger-consistent store holding balance -0.01,
adjustWalletBalance with the sub-cent amount 0.005 stores a transaction of
+0.01 (not the applied amount) while the balance stays -0.01, breaking the
balance-equals-sum-of-transactions property. -/
theorem adjustWalletBalance_subcent_counterexample :
    adjustWalletBalance exCentWalletDB 7 (1/200) = .ok exCentAdjusted
      ∧ (1/100 : ℚ) ≠ 1/200
      ∧ getWalletByUserId exCentAdjusted 7
          = some { id := 1, user_id := 7, balance := -1/100, max_negative_balance := 0 }
      ∧ txSum exCentAdjusted 1 = 0
      ∧ ledgerConsistent exCentWalletDB
      ∧ ¬ ledgerConsistent exCentAdjusted := by
  refine ⟨by decide, by decide, by decide, by decide, ?_, ?_⟩
  · unfold ledgerConsistent
    decide
  · unfold ledgerConsistent
    decide

theorem createBooking_slotConflict_iff_witness :
    (createBooking exBookingDB exConflictInput = .error .slotConflict ↔
      ∃ b ∈ exBookingDB.bookings, b.pitch_id = exConflictInput.pitch_id
        ∧ b.booking_date = normalizeDate exConflictInput.booking_date
        ∧ b.status = .confirmed
        ∧ ∃ bs be : ℚ, timeToMinutes b.start_time = .num bs
            ∧ timeToMinutes b.end_time = .num be
            ∧ 630 < be ∧ bs < 690)
      ∧ createBooking exBookingDB exConflictInput = .error .slotConflict :=
  ⟨createBooking_slotConflict_iff exBookingDB exConflictInput 630 690
      { id := 1, full_name := "Test Player", role := .player, is_active := true }
      ({ id := 1, facility_id := 1, hourly_rate := 50, is_active := true },
        { id := 1, owner_id := 2, is_active := true })
      (by decide) (by decide) (by decide) (by decide) (by decide),
    by decide⟩

theorem walletOps_ledger_consistency_witness :
    ledgerConsistent (applyOps initialWalletDB
        [.topUp 7 100, .debit 7 30 .booking_payment, .credit 9 50 .facility_payout])
      ∧ (topUpWallet exWalletDB 7 25).1.transactions
          = exWalletDB.transactions ++ [(topUpWallet exWalletDB 7 25).2]
      ∧ (topUpWallet exWalletDB 7 25).2.amount = 25
      ∧ exDebit30R.1.transactions = exWalletDB.transactions ++ [exDebit30R.2]
      ∧ exDebit30R.2.amount = -30 :=
  ⟨walletOps_ledger_consistency.1 _ (by decide),
    (walletOps_ledger_consistency.2.1 exWalletDB 7 25 (by decide)).1,
    (walletOps_ledger_consistency.2.1 exWalletDB 7 25 (by decide)).2.1,
    (walletOps_ledger_consistency.2.2.2 exWalletDB 7 30 .booking_payment exDebit30R
      (by decide) (by decide)).1,
    (walletOps_ledger_consistency.2.2.2 exWalletDB 7 30 .booking_payment exDebit30R
      (by decide) (by decide)).2.1⟩

theorem debitWallet_insufficient_witness :
    debitWallet exWalletDB 7 200 .booking_payment = .error .insufficientBalance
      ∧ applyOp exWalletDB (.debit 7 200 .booking_payment) = exWalletDB :=
  debitWallet_insufficient exWalletDB 7 200 .booking_payment
    { id := 1, user_id := 7, balance := 100, max_negative_balance := 50 }
    (by decide) (by decide)

theorem createBooking_pending_and_total_witness :
    (exPriceBooking.status = .pending
      ∧ ∃ pf : Pitch × Facility,
          findActivePitchWithFacility exBookingDB exPriceInput.pitch_id = some pf
          ∧ exPriceBooking.total_amount
              = .num (round2 (pf.1.hourly_rate * ((930 - 840) / 60))))
      ∧ exPriceBooking.total_amount = .num 75 :=
  ⟨createBooking_pending_and_total exBookingDB exPriceInput
      { exBookingDB with bookings := exBookingDB.bookings ++ [exPriceBooking] }
      exPriceBooking 840 930 (by decide) (by decide) (by decide),
    by decide⟩

theorem wallet_ops_accept_nonpositive_witness :
    ((topUpWallet exWalletDB 7 (-5)).1.transactions
        = exWalletDB.transactions ++ [(topUpWallet exWalletDB 7 (-5)).2]
      ∧ (topUpWallet exWalletDB 7 (-5)).2.amount = round2 (-5)
      ∧ getWalletByUserId (topUpWallet exWalletDB 7 (-5)).1 7
          = some { id := 1, user_id := 7, balance := round2 (100 + -5),
                   max_negative_balance := 50 })
    ∧ ((creditWallet exWalletDB 7 (-5) .facility_payout).1.transactions
        = exWalletDB.transactions ++ [(creditWallet exWalletDB 7 (-5) .facility_payout).2]
      ∧ (creditWallet exWalletDB 7 (-5) .facility_payout).2.amount = round2 (-5)
      ∧ getWalletByUserId (creditWallet exWalletDB 7 (-5) .facility_payout).1 7
          = some { id := 1, user_id := 7, balance := round2 (100 + -5),
                   max_negative_balance := 50 })
    ∧ ∃ r, debitWallet exWalletDB 7 (-5) .facility_payout = .ok r
        ∧ r.2.amount = round2 (-(-5))
        ∧ getWalletByUserId r.1 7
            = some { id := 1, user_id := 7, balance := round2 (100 - -5),
                     max_negative_balance := 50 } :=
  wallet_ops_accept_nonpositive exWalletDB 7 (-5) .facility_payout
    { id := 1, user_id := 7, balance := 100, max_negative_balance := 50 }
    (by decide) (by decide) (by decide)

theorem debitWallet_balance_floor_witness :
    (getWalletByUserId exDebit150R.1 7
        = some { id := 1, user_id := 7, balance := round2 (100 - 150),
                 max_negative_balance := 50 }
      ∧ -(50 : ℚ) ≤ 100 - 150
      ∧ -(50 : ℚ) ≤ round2 ((100 : ℚ) - 150))
      ∧ debitWallet exDebit150R.1 7 (1/100) .booking_payment
          = .error .insufficientBalance := by
  have h := debitWallet_balance_floor exWalletDB 7 150 .booking_payment exDebit150R
    { id := 1, user_id := 7, balance := 100, max_negative_balance := 50 }
    (by decide) (by decide)
  exact ⟨⟨h.1, h.2.1, h.2.2 (by decide)⟩, by decide⟩

theorem settlements_entry_characterization_witness :
    exZeroEntry ∈ getFinancialSettlements [exOwner] [exOwnerWallet] ↔
      ∃ u ∈ [exOwner], ∃ w ∈ [exOwnerWallet], u.role = .facility_owner ∧ w.user_id = u.id
        ∧ exZeroEntry.facilityOwnerId = u.id ∧ exZeroEntry.ownerName = u.full_name
        ∧ exZeroEntry.balance = w.balance
        ∧ ((0 < w.balance ∧ exZeroEntry.settlementAmount = w.balance
              ∧ exZeroEntry.settlementType = .payout)
          ∨ (w.balance < -w.max_negative_balance
              ∧ exZeroEntry.settlementAmount = |w.balance + w.max_negative_balance|
              ∧ exZeroEntry.settlementType = .collection)
          ∨ (-w.max_negative_balance ≤ w.balance ∧ w.balance ≤ 0
              ∧ exZeroEntry.settlementAmount = 0
              ∧ exZeroEntry.settlementType = .payout)) :=
  settlements_entry_characterization [exOwner] [exOwnerWallet] exZeroEntry (by decide)

theorem summary_owedAmount_formula_witness :
    ({ userId := 5, balance := 0,
        owedAmount :=
          ((max ((exOneFacility.filter fun f => f.owner_id == 5).length) 1 : ℕ) : ℚ)
            * ((85 : ℚ) / 100 * |bookingPaymentSum exOwner2WalletDB 1|) } : FacilitySummary)
        ∈ getFacilityWalletSummary [exOwner2] exOneFacility exOwner2WalletDB
      ∧ ((max ((exOneFacility.filter fun f => f.owner_id == 5).length) 1 : ℕ) : ℚ)
            * ((85 : ℚ) / 100 * |bookingPaymentSum exOwner2WalletDB 1|) = 85 :=
  ⟨summary_owedAmount_formula [exOwner2] exOneFacility exOwner2WalletDB exOwner2
      { id := 1, user_id := 5, balance := 0, max_negative_balance := 0 }
      (by decide) (by decide) (by decide) (by decide),
    by decide⟩

theorem createBooking_nan_times_witness :
    ∃ r : BookingDB × BookingRow, createBooking exBookingDB exNanInput = .ok r
      ∧ r.2.status = .pending ∧ r.2.total_amount = .nan :=
  createBooking_nan_times exBookingDB exNanInput
    { id := 1, full_name := "Test Player", role := .player, is_active := true }
    ({ id := 1, facility_id := 1, hourly_rate := 50, is_active := true },
      { id := 1, owner_id := 2, is_active := true })
    (by decide) (by decide) (Or.inl (by decide))

theorem adjustWalletBalance_unvalidated_witness :
    (∃ s2 : WalletDB, adjustWalletBalance exWalletDB 7 (-200) = .ok s2
      ∧ s2.transactions = exWalletDB.transactions
          ++ [{ wallet_id := 1, type := .admin_adjustment, amount := -200 }]
      ∧ getWalletByUserId s2 7
          = some { id := 1, user_id := 7, balance := 100 + -200, max_negative_balance := 50 }
      ∧ ledgerConsistent s2)
      ∧ (100 : ℚ) + -200 < -50 :=
  ⟨adjustWalletBalance_unvalidated exWalletDB 7 (-200)
      { id := 1, user_id := 7, balance := 100, max_negative_balance := 50 }
      (by decide) (by decide) (by decide) (by unfold ledgerConsistent; decide)
      (by decide) (by decide),
    by decide⟩

end PitchTunisia
